import Mathlib

/-!
Verification of the event-management backend: a shallow embedding of the
event and notification services (`EventService`, `NotificationService`),
their repositories (`EventRepository`, `NotificationRepository`) and the
OpenAPI handlers (`OpenAPIServiceHandlers`), together with theorems
settling the frozen claims about the specification.

The database is modelled as an in-memory store holding the `events` and
`notifications` tables in row order; `uuid` primary keys are modelled as a
fresh-`Nat` counter, `timestamp` columns as `Int`.  TypeScript `undefined`
versus `null` on nullable columns is modelled as `Option (Option _)`
(outer layer: field present in the object; inner layer: SQL NULL), since
the services distinguish them via JavaScript truthiness (`x || y`).
-/

/-- Event status enum (`event_status` in the migration): draft, published, archived. -/
inductive Status where
  | draft
  | published
  | archived
deriving DecidableEq, Repr

/-- A row of the `events` table (`schema.Event`, `$inferSelect`). -/
structure Event where
  id : Nat
  name : String
  description : Option String
  status : Status
  startDate : Int
  endDate : Option Int
  location : Option String
  tags : Option (List String)
  notificationCount : Nat
  createdAt : Int
  updatedAt : Int
deriving DecidableEq, Repr

/-- A row of the `notifications` table (`schema.Notification`). -/
structure Notification where
  id : Nat
  eventId : Nat
  title : String
  message : Option String
  isRead : Nat
  createdAt : Int
deriving DecidableEq, Repr

/-- The database state: both tables in row order plus the fresh-id source. -/
structure Store where
  events : List Event
  notifications : List Notification
  nextId : Nat
deriving DecidableEq, Repr

/-- Insert shape for `events` (`schema.NewEvent`, `$inferInsert`): columns with
a database default are optional. -/
structure NewEvent where
  name : String
  description : Option String := none
  status : Option Status := none
  startDate : Int
  endDate : Option Int := none
  location : Option String := none
  tags : Option (List String) := none
  notificationCount : Option Nat := none
  updatedAt : Option Int := none
deriving DecidableEq, Repr

/-- Update shape for `events` (`Partial<schema.Event>`): every field optional;
for nullable columns the inner `Option` is SQL NULL.  `startDate` is a
non-nullable `Date`, hence a single `Option`. -/
structure EventChanges where
  name : Option String := none
  description : Option (Option String) := none
  status : Option Status := none
  startDate : Option Int := none
  endDate : Option (Option Int) := none
  location : Option (Option String) := none
  tags : Option (Option (List String)) := none
deriving DecidableEq, Repr

/-- Error taxonomy of the spec, carrying the exact message thrown by the code. -/
inductive DomainError where
  | notFound (entity : String)
  | validationFailed (msg : String)
  | invalidTransition (msg : String)
  | invalidArgument (msg : String)
deriving DecidableEq, Repr

/-- SQL LIKE pattern interpreter with `%`, `_` and backslash escapes, written
with explicit fuel so that it is structurally recursive; each recursive call
strictly decreases `pattern.length + s.length`, so the initial fuel
`pattern.length + s.length + 1` never runs out. -/
def likeFuel : Nat → List Char → List Char → Bool
  | 0, _, _ => false
  | fuel + 1, pattern, s =>
    match pattern, s with
    | [], rest => rest.isEmpty
    | '%' :: ps, rest =>
      likeFuel fuel ps rest ||
        (match rest with
         | [] => false
         | _ :: rest2 => likeFuel fuel ('%' :: ps) rest2)
    | '_' :: ps, _ :: rest2 => likeFuel fuel ps rest2
    | '_' :: _, [] => false
    | ['\\'], _ => false
    | '\\' :: pc :: ps, c :: rest2 => (pc == c) && likeFuel fuel ps rest2
    | '\\' :: _ :: _, [] => false
    | pc :: ps, c :: rest2 => (pc == c) && likeFuel fuel ps rest2
    | _ :: _, [] => false

/-- ASCII lower-casing of one character (the case folding relevant to the
ASCII identifiers and names in this schema). -/
def lowerChar (c : Char) : Char :=
  if 65 ≤ c.toNat ∧ c.toNat ≤ 90 then Char.ofNat (c.toNat + 32) else c

/-- Case-insensitive SQL LIKE, i.e. Postgres `ILIKE`: both sides are
lower-cased and the pattern is interpreted. -/
def sqlIlike (pattern str : String) : Bool :=
  let p := pattern.toList.map lowerChar
  let s := str.toList.map lowerChar
  likeFuel (p.length + s.length + 1) p s

/-- Whether `q` begins the list `s` (character-wise). -/
def begMatch : List Char → List Char → Bool
  | [], _ => true
  | _ :: _, [] => false
  | a :: as, b :: bs => (a == b) && begMatch as bs

/-- Whether `q` occurs contiguously inside `s`. -/
def subSeq (q : List Char) : List Char → Bool
  | [] => begMatch q []
  | b :: bs => begMatch q (b :: bs) || subSeq q bs

/-- Case-insensitive substring test (used only to state the spec's
"substring match" reading of the search filter). -/
def hasSubCI (q str : String) : Bool :=
  subSeq (q.toList.map lowerChar) (str.toList.map lowerChar)

/-- Look up an event row by id (`BaseRepository.findById` on `events`). -/
def findEvent (s : Store) (id : Nat) : Option Event :=
  s.events.find? (fun e => decide (e.id = id))

/-- Look up a notification row by id (`BaseRepository.findById` on `notifications`). -/
def findNotif (s : Store) (id : Nat) : Option Notification :=
  s.notifications.find? (fun n => decide (n.id = id))

/-- INSERT into `events` (`BaseRepository.create`): fresh id, database
defaults for status (`draft`), `notification_count` (0) and timestamps (`now()`). -/
def repoCreateEvent (d : NewEvent) (now : Int) (s : Store) : Event × Store :=
  let e : Event :=
    { id := s.nextId
      name := d.name
      description := d.description
      status := d.status.getD Status.draft
      startDate := d.startDate
      endDate := d.endDate
      location := d.location
      tags := d.tags
      notificationCount := d.notificationCount.getD 0
      createdAt := now
      updatedAt := d.updatedAt.getD now }
  (e, { s with events := s.events ++ [e], nextId := s.nextId + 1 })

/-- Apply an UPDATE's SET clause to one row: only the fields present in the
change object are written; `updatedAt` is always part of the SET clause in
`EventService.update` (`{...changes, updatedAt: new Date()}`). -/
def applyChanges (c : EventChanges) (upAt : Int) (e : Event) : Event :=
  { id := e.id
    name := c.name.getD e.name
    description := c.description.getD e.description
    status := c.status.getD e.status
    startDate := c.startDate.getD e.startDate
    endDate := c.endDate.getD e.endDate
    location := c.location.getD e.location
    tags := c.tags.getD e.tags
    notificationCount := e.notificationCount
    createdAt := e.createdAt
    updatedAt := upAt }

/-- UPDATE `events` SET ... WHERE id = _ RETURNING (`BaseRepository.update`):
returns the first updated row (`results[0]`) and the new table state. -/
def repoUpdateEvent (id : Nat) (c : EventChanges) (upAt : Int) (s : Store) :
    Option Event × Store :=
  ((s.events.find? (fun e => decide (e.id = id))).map (applyChanges c upAt),
   { s with
      events := s.events.map (fun e => if e.id = id then applyChanges c upAt e else e) })

/-- DELETE FROM `events` WHERE id = _ (`BaseRepository.delete`); the
`ON DELETE cascade` foreign key removes the event's notifications.  Returns
whether any row was deleted. -/
def repoDeleteEvent (id : Nat) (s : Store) : Bool × Store :=
  (decide ((s.events.filter (fun e => decide (e.id = id))).length > 0),
   { s with
      events := s.events.filter (fun e => !decide (e.id = id)),
      notifications := s.notifications.filter (fun n => !decide (n.eventId = id)) })

/-- INSERT into `notifications` (`NotificationRepository` via
`BaseRepository.create`): fresh id, `is_read` defaults to 0, `created_at`
defaults to `now()`. -/
def repoCreateNotification (eventId : Nat) (title msg : String) (now : Int)
    (s : Store) : Notification × Store :=
  let n : Notification :=
    { id := s.nextId
      eventId := eventId
      title := title
      message := some msg
      isRead := 0
      createdAt := now }
  (n, { s with notifications := s.notifications ++ [n], nextId := s.nextId + 1 })

/-- Embeds `NotificationRepository.markAsRead`: UPDATE ... SET is_read = 1 WHERE
id = _ RETURNING; returns all updated rows. -/
def repoMarkAsRead (id : Nat) (s : Store) : List Notification × Store :=
  ((s.notifications.filter (fun n => decide (n.id = id))).map
      (fun n => { n with isRead := 1 }),
   { s with
      notifications := s.notifications.map
        (fun n => if n.id = id then { n with isRead := 1 } else n) })

/-- Embeds `NotificationRepository.markAllAsReadForEvent`: UPDATE ... SET is_read = 1
WHERE event_id = _ RETURNING; returns all updated rows. -/
def repoMarkAllAsReadForEvent (eventId : Nat) (s : Store) :
    List Notification × Store :=
  ((s.notifications.filter (fun n => decide (n.eventId = eventId))).map
      (fun n => { n with isRead := 1 }),
   { s with
      notifications := s.notifications.map
        (fun n => if n.eventId = eventId then { n with isRead := 1 } else n) })

/-- The filter condition built by `EventRepository.findAll` and
`EventRepository.countWithFilters`: `ilike(name, '%q%') OR EXISTS (tag ILIKE
'%q%')` when a non-empty search string is given (JavaScript truthiness:
`if (searchQuery)`), AND exact status equality when a status is given; both
functions build the identical condition list.  `unnest` of a NULL tags array
yields no rows. -/
def condMatches (searchQuery : Option String) (status : Option Status)
    (e : Event) : Bool :=
  (match searchQuery with
   | some q =>
     if q = "" then true
     else
       sqlIlike ("%" ++ q ++ "%") e.name ||
         (e.tags.getD []).any (fun t => sqlIlike ("%" ++ q ++ "%") t)
   | none => true) &&
  (match status with
   | some st => decide (e.status = st)
   | none => true)

/-- Embeds `EventRepository.findAll(page, pageSize, searchQuery?, status?)`: filtered
rows (paired with their notification count from the LEFT JOIN / GROUP BY)
with `OFFSET (page-1)*pageSize LIMIT pageSize`. -/
def repoFindAllEvents (page pageSize : Nat) (searchQuery : Option String)
    (status : Option Status) (s : Store) : List (Event × Nat) :=
  ((((s.events.filter (condMatches searchQuery status)).map
        (fun e => (e, (s.notifications.filter
          (fun n => decide (n.eventId = e.id))).length))).drop
      ((page - 1) * pageSize)).take pageSize)

/-- Embeds `EventRepository.countWithFilters(searchQuery?, status?)`: count of all
rows matching the same filter condition. -/
def repoCountWithFilters (searchQuery : Option String) (status : Option Status)
    (s : Store) : Nat :=
  (s.events.filter (condMatches searchQuery status)).length

/-- The page object returned by `EventService.findWithFilters`. -/
structure PageResult where
  data : List (Event × Nat)
  total : Nat
  page : Nat
  pageSize : Nat
deriving DecidableEq, Repr

/-- Embeds `EventService.findWithFilters`: runs the paginated query and the count
query and wraps them in the page object. -/
def findWithFilters (page pageSize : Nat) (searchQuery : Option String)
    (status : Option Status) (s : Store) : PageResult :=
  { data := repoFindAllEvents page pageSize searchQuery status s
    total := repoCountWithFilters searchQuery status s
    page := page
    pageSize := pageSize }

/-- The `meta` object built by the `listEvents` handler. -/
structure ListMeta where
  page : Nat
  pageSize : Nat
  totalPages : Nat
  totalItems : Nat
deriving DecidableEq, Repr

/-- Embeds `OpenAPIServiceHandlers.listEvents`: calls `findWithFilters` and computes
`totalPages = Math.ceil(total / pageSize)`. -/
def listEventsHandler (page pageSize : Nat) (searchQuery : Option String)
    (status : Option Status) (s : Store) : List (Event × Nat) × ListMeta :=
  let result := findWithFilters page pageSize searchQuery status s
  (result.data,
   { page := result.page
     pageSize := result.pageSize
     totalPages := (result.total + result.pageSize - 1) / result.pageSize
     totalItems := result.total })

/-- Embeds `EventService.validateEventDates`: throws when an end date is present
(truthy) and `endDate <= startDate`. -/
def validateEventDates (startDate : Int) (endDate : Option Int) :
    Option DomainError :=
  match endDate with
  | some e =>
    if e ≤ startDate then
      some (DomainError.validationFailed "End date must be after start date")
    else none
  | none => none

/-- Embeds `EventService.create`: validates dates, defaults status
(`data.status || 'draft'`), sets `updatedAt`, inserts the event, then inserts
the "Event Created" notification. -/
def eventCreate (d : NewEvent) (now : Int) (s : Store) :
    Except DomainError Event × Store :=
  match validateEventDates d.startDate d.endDate with
  | some err => (Except.error err, s)
  | none =>
    let eventData := { d with status := some (d.status.getD Status.draft),
                              updatedAt := some now }
    let r1 := repoCreateEvent eventData now s
    let r2 := repoCreateNotification r1.1.id "Event Created"
      ("Event \"" ++ r1.1.name ++ "\" has been created") now r1.2
    (Except.ok r1.1, r2.2)

/-- JavaScript truthiness of `changes.startDate || changes.endDate` in
`EventService.update`: `startDate` is a `Date` (truthy whenever present);
`endDate` is truthy only when present and not `null`. -/
def dateGuard (c : EventChanges) : Bool :=
  c.startDate.isSome ||
    (match c.endDate with
     | some (some _) => true
     | _ => false)

/-- Embeds `const endDate = changes.endDate || existing.endDate`: an absent or
explicitly-`null` change falls back to the stored value. -/
def mergedEndForValidation (c : EventChanges) (existing : Event) : Option Int :=
  match c.endDate with
  | some (some d) => some d
  | _ => existing.endDate

/-- JavaScript truthiness of `changes.status || changes.name ||
changes.startDate` in `EventService.update`: `status` and `startDate` are
truthy whenever present; `name` is a string, falsy when empty. -/
def notifTrigger (c : EventChanges) : Bool :=
  c.status.isSome || !(c.name.getD "").isEmpty || c.startDate.isSome

/-- The write phase of `EventService.update`: UPDATE with bumped `updatedAt`,
`assertExists` on the result, then the conditional "Event Updated"
notification. -/
def eventUpdateWrite (id : Nat) (c : EventChanges) (now : Int) (s : Store) :
    Except DomainError Event × Store :=
  let r := repoUpdateEvent id c now s
  match r.1 with
  | none => (Except.error (DomainError.notFound "Event"), r.2)
  | some updated =>
    if notifTrigger c then
      let r2 := repoCreateNotification id "Event Updated"
        "Event has been updated" now r.2
      (Except.ok updated, r2.2)
    else (Except.ok updated, r.2)

/-- Embeds `EventService.update`: when either date field is truthy in the change
set, re-reads the event and validates the `||`-merged dates before writing. -/
def eventUpdate (id : Nat) (c : EventChanges) (now : Int) (s : Store) :
    Except DomainError Event × Store :=
  if dateGuard c then
    match findEvent s id with
    | none => (Except.error (DomainError.notFound "Event"), s)
    | some existing =>
      match validateEventDates (c.startDate.getD existing.startDate)
          (mergedEndForValidation c existing) with
      | some err => (Except.error err, s)
      | none => eventUpdateWrite id c now s
  else eventUpdateWrite id c now s

/-- Embeds `EventService.remove`: hard delete relying on the cascade. -/
def eventRemove (id : Nat) (s : Store) : Bool × Store :=
  repoDeleteEvent id s

/-- Embeds `EventService.publish`: only draft events can be published; on success
sets status to published with a fresh `updatedAt` and inserts the
"Event Published" notification.  The non-null assertion `updated!` is
modelled by returning the repository's `Option` result. -/
def eventPublish (id : Nat) (now : Int) (s : Store) :
    Except DomainError (Option Event) × Store :=
  match findEvent s id with
  | none => (Except.error (DomainError.notFound "Event"), s)
  | some event =>
    if event.status ≠ Status.draft then
      (Except.error
        (DomainError.invalidTransition "Only draft events can be published"), s)
    else
      let r := repoUpdateEvent id { status := some Status.published } now s
      let r2 := repoCreateNotification id "Event Published"
        ("Event \"" ++ event.name ++ "\" has been published") now r.2
      (Except.ok r.1, r2.2)

/-- Embeds `EventService.archive`: fails when the event is already archived; on
success sets status to archived with a fresh `updatedAt` and inserts the
"Event Archived" notification. -/
def eventArchive (id : Nat) (now : Int) (s : Store) :
    Except DomainError (Option Event) × Store :=
  match findEvent s id with
  | none => (Except.error (DomainError.notFound "Event"), s)
  | some event =>
    if event.status = Status.archived then
      (Except.error (DomainError.invalidTransition "Event is already archived"),
       s)
    else
      let r := repoUpdateEvent id { status := some Status.archived } now s
      let r2 := repoCreateNotification id "Event Archived"
        ("Event \"" ++ event.name ++ "\" has been archived") now r.2
      (Except.ok r.1, r2.2)

/-- Embeds `EventService.duplicate`: copies the source fields with `" (Copy)"`
appended to the name, forces status to draft, inserts the copy and its
"Event Duplicated" notification. -/
def eventDuplicate (id : Nat) (now : Int) (s : Store) :
    Except DomainError Event × Store :=
  match findEvent s id with
  | none => (Except.error (DomainError.notFound "Event"), s)
  | some event =>
    let duplicateData : NewEvent :=
      { name := event.name ++ " (Copy)"
        description := event.description
        status := some Status.draft
        startDate := event.startDate
        endDate := event.endDate
        location := event.location
        tags := event.tags }
    let r := repoCreateEvent duplicateData now s
    let r2 := repoCreateNotification r.1.id "Event Duplicated"
      ("Event \"" ++ r.1.name ++ "\" has been created as a copy") now r.2
    (Except.ok r.1, r2.2)

/-- Embeds `NotificationService.markAsRead`: `assertExists`, early return without a
write when already read, otherwise UPDATE and return `updated[0]`. -/
def notifMarkAsRead (id : Nat) (s : Store) :
    Except DomainError (Option Notification) × Store :=
  match findNotif s id with
  | none => (Except.error (DomainError.notFound "Notification"), s)
  | some n =>
    if n.isRead = 1 then (Except.ok (some n), s)
    else
      let r := repoMarkAsRead id s
      (Except.ok r.1.head?, r.2)

/-- Embeds `NotificationService.markAllReadForEvent`: delegates to the repository
and maps the identity `formatForResponse` over the returned rows. -/
def notifMarkAllReadForEvent (eventId : Nat) (s : Store) :
    List Notification × Store :=
  repoMarkAllAsReadForEvent eventId s

/-- Embeds `OpenAPIServiceHandlers.deleteEvent`: hard delete only when the
`permanent` query parameter is exactly the string `"true"`, otherwise
archive; replies 204 (modelled as `Unit`) on success. -/
def deleteEventHandler (permanent : Option String) (id : Nat) (now : Int)
    (s : Store) : Except DomainError Unit × Store :=
  if permanent = some "true" then
    let r := eventRemove id s
    (Except.ok (), r.2)
  else
    let r := eventArchive id now s
    match r.1 with
    | Except.ok _ => (Except.ok (), r.2)
    | Except.error err => (Except.error err, r.2)

/-- Boolean form of the date invariant: if an end date is present it is
strictly after the start date. -/
def dateOkB (e : Event) : Bool :=
  match e.endDate with
  | some en => decide (e.startDate < en)
  | none => true

/-- A found row is a member of the table. -/
lemma findEvent_mem {s : Store} {id : Nat} {e : Event}
    (h : findEvent s id = some e) : e ∈ s.events :=
  List.mem_of_find?_eq_some h

/-- A found row has the looked-up id. -/
lemma findEvent_id {s : Store} {id : Nat} {e : Event}
    (h : findEvent s id = some e) : e.id = id := by
  have := List.find?_some h
  simpa using this

/-- The head of a filtered list is the first match. -/
lemma head_filter_eq_find {α : Type} (p : α → Bool) (l : List α) :
    (l.filter p).head? = l.find? p := by
  induction l with
  | nil => rfl
  | cons a t ih =>
    by_cases hp : p a <;> simp [List.filter_cons, List.find?_cons, hp, ih]

/-- Mapping commutes with the head of a list. -/
lemma head_map {α β : Type} (f : α → β) (l : List α) :
    (l.map f).head? = l.head?.map f := by
  cases l <;> rfl

/-- C3: for an existing event, `publish` succeeds exactly when the current
status is `draft`; any other prior status yields the invalid-transition error
with the store unchanged; on success the status becomes `published`,
`updatedAt` is set to the current time, and an "Event Published" notification
row is appended. -/
theorem publish_only_from_draft (s : Store) (id : Nat) (now : Int) (e : Event)
    (h : findEvent s id = some e) :
    (e.status ≠ Status.draft →
      eventPublish id now s =
        (Except.error
          (DomainError.invalidTransition "Only draft events can be published"),
         s)) ∧
    (e.status = Status.draft →
      eventPublish id now s =
        (Except.ok (some { e with status := Status.published, updatedAt := now }),
         { events := s.events.map (fun x =>
             if x.id = id then { x with status := Status.published, updatedAt := now }
             else x),
           notifications := s.notifications ++
             [{ id := s.nextId, eventId := id, title := "Event Published",
                message := some ("Event \"" ++ e.name ++ "\" has been published"),
                isRead := 0, createdAt := now }],
           nextId := s.nextId + 1 })) := by
  have h2 : List.find? (fun x => decide (x.id = id)) s.events = some e := h
  constructor
  · intro hne
    simp [eventPublish, h, hne]
  · intro hdr
    simp [eventPublish, h, h2, hdr, repoUpdateEvent, repoCreateNotification,
      applyChanges]

/-- C4: for an existing event, `archive` fails exactly when the current
status is already `archived` (store unchanged); from `draft` or `published`
it succeeds, sets status to `archived`, sets `updatedAt` to the current time,
and appends an "Event Archived" notification row. -/
theorem archive_fails_iff_archived (s : Store) (id : Nat) (now : Int)
    (e : Event) (h : findEvent s id = some e) :
    (e.status = Status.archived →
      eventArchive id now s =
        (Except.error (DomainError.invalidTransition "Event is already archived"),
         s)) ∧
    (e.status ≠ Status.archived →
      eventArchive id now s =
        (Except.ok (some { e with status := Status.archived, updatedAt := now }),
         { events := s.events.map (fun x =>
             if x.id = id then { x with status := Status.archived, updatedAt := now }
             else x),
           notifications := s.notifications ++
             [{ id := s.nextId, eventId := id, title := "Event Archived",
                message := some ("Event \"" ++ e.name ++ "\" has been archived"),
                isRead := 0, createdAt := now }],
           nextId := s.nextId + 1 })) := by
  have h2 : List.find? (fun x => decide (x.id = id)) s.events = some e := h
  constructor
  · intro ha
    simp [eventArchive, h, ha]
  · intro hne
    simp [eventArchive, h, h2, hne, repoUpdateEvent, repoCreateNotification,
      applyChanges]

/-- C9: the generic update path has no status-transition guard: for an
existing event and any target status, `update(id, {status})` succeeds
regardless of the prior status, setting the new status and a fresh
`updatedAt` (and, status being a trigger field, appending one "Event Updated"
notification). -/
theorem update_bypasses_status_guard (s : Store) (id : Nat) (now : Int)
    (st : Status) (e : Event) (h : findEvent s id = some e) :
    eventUpdate id { status := some st } now s =
      (Except.ok { e with status := st, updatedAt := now },
       { events := s.events.map (fun x =>
           if x.id = id then { x with status := st, updatedAt := now } else x),
         notifications := s.notifications ++
           [{ id := s.nextId, eventId := id, title := "Event Updated",
              message := some "Event has been updated",
              isRead := 0, createdAt := now }],
         nextId := s.nextId + 1 }) := by
  have h2 : List.find? (fun x => decide (x.id = id)) s.events = some e := h
  simp [eventUpdate, dateGuard, eventUpdateWrite, repoUpdateEvent, h, h2,
    notifTrigger, repoCreateNotification, applyChanges]

/-- C10: the delete endpoint hard-deletes only when the `permanent` query
parameter is exactly the string "true"; for any other value (or when absent)
it dispatches to `archive`, so a default delete of an already-archived event
fails with the already-archived transition error instead of replying 204. -/
theorem delete_permanent_exact_true (p : Option String) (s : Store) (id : Nat)
    (now : Int) (e : Event) (h : findEvent s id = some e) :
    (p = some "true" →
      deleteEventHandler p id now s = (Except.ok (), (repoDeleteEvent id s).2)) ∧
    (p ≠ some "true" →
      deleteEventHandler p id now s =
        (match (eventArchive id now s).1 with
         | Except.ok _ => (Except.ok (), (eventArchive id now s).2)
         | Except.error err => (Except.error err, (eventArchive id now s).2))) ∧
    (p ≠ some "true" → e.status = Status.archived →
      deleteEventHandler p id now s =
        (Except.error (DomainError.invalidTransition "Event is already archived"),
         s)) := by
  refine ⟨?_, ?_, ?_⟩
  · intro hp
    simp [deleteEventHandler, hp, eventRemove]
  · intro hp
    simp [deleteEventHandler, hp]
  · intro hp ha
    simp [deleteEventHandler, hp, eventArchive, h, ha]

/-- A concrete event used by the concrete instantiations below. -/
def sampleEvent : Event :=
  { id := 0, name := "Launch", description := none, status := Status.draft,
    startDate := 0, endDate := none, location := none, tags := none,
    notificationCount := 0, createdAt := 0, updatedAt := 0 }

/-- A one-event store with the given status. -/
def sampleStore (st : Status) : Store :=
  { events := [{ sampleEvent with status := st }], notifications := [],
    nextId := 1 }

/-- Witness for C3 at a concrete store: publishing a published event fails
with the invalid-transition error, publishing a draft event succeeds. -/
theorem publish_only_from_draft_witness :
    eventPublish 0 5 (sampleStore Status.published) =
      (Except.error
        (DomainError.invalidTransition "Only draft events can be published"),
       sampleStore Status.published) ∧
    (eventPublish 0 5 (sampleStore Status.draft)).1 =
      Except.ok (some { sampleEvent with status := Status.published, updatedAt := 5 }) := by
  constructor
  · exact (publish_only_from_draft (sampleStore Status.published) 0 5
      { sampleEvent with status := Status.published } rfl).1 (by decide)
  · rw [(publish_only_from_draft (sampleStore Status.draft) 0 5
      { sampleEvent with status := Status.draft } rfl).2 rfl]

/-- Witness for C4 at a concrete store: archiving an archived event fails,
archiving a published event succeeds. -/
theorem archive_fails_iff_archived_witness :
    eventArchive 0 5 (sampleStore Status.archived) =
      (Except.error (DomainError.invalidTransition "Event is already archived"),
       sampleStore Status.archived) ∧
    (eventArchive 0 5 (sampleStore Status.published)).1 =
      Except.ok (some { sampleEvent with status := Status.archived, updatedAt := 5 }) := by
  constructor
  · exact (archive_fails_iff_archived (sampleStore Status.archived) 0 5
      { sampleEvent with status := Status.archived } rfl).1 rfl
  · rw [(archive_fails_iff_archived (sampleStore Status.published) 0 5
      { sampleEvent with status := Status.published } rfl).2 (by decide)]

/-- Witness for C9 at a concrete store: the generic update moves an archived
event straight back to draft. -/
theorem update_bypasses_status_guard_witness :
    (eventUpdate 0 { status := some Status.draft } 5
        (sampleStore Status.archived)).1 =
      Except.ok { sampleEvent with status := Status.draft, updatedAt := 5 } := by
  rw [update_bypasses_status_guard (sampleStore Status.archived) 0 5
    Status.draft { sampleEvent with status := Status.archived } rfl]

/-- Witness for C10 at a concrete store: a default delete of an archived
event raises the already-archived error, while `permanent=true` hard-deletes. -/
theorem delete_permanent_exact_true_witness :
    deleteEventHandler none 0 5 (sampleStore Status.archived) =
      (Except.error (DomainError.invalidTransition "Event is already archived"),
       sampleStore Status.archived) ∧
    deleteEventHandler (some "true") 0 5 (sampleStore Status.archived) =
      (Except.ok (), { events := [], notifications := [], nextId := 1 }) := by
  constructor
  · exact (delete_permanent_exact_true none (sampleStore Status.archived) 0 5
      { sampleEvent with status := Status.archived } rfl).2.2 (by decide) rfl
  · rw [(delete_permanent_exact_true (some "true") (sampleStore Status.archived)
      0 5 { sampleEvent with status := Status.archived } rfl).1 rfl]
    rfl

/-- C6: duplicating an existing event creates a fresh-id draft copy with the
name suffixed " (Copy)" and all content fields equal to the source's, appends
exactly one "Event Duplicated" notification attached to the new event, and
copies none of the source's notifications. -/
theorem duplicate_copies_as_draft (s : Store) (id : Nat) (now : Int) (e : Event)
    (h : findEvent s id = some e)
    (hwfE : ∀ x ∈ s.events, x.id < s.nextId)
    (hwfN : ∀ m ∈ s.notifications, m.eventId < s.nextId) :
    let d : Event :=
      { id := s.nextId, name := e.name ++ " (Copy)", description := e.description,
        status := Status.draft, startDate := e.startDate, endDate := e.endDate,
        location := e.location, tags := e.tags, notificationCount := 0,
        createdAt := now, updatedAt := now }
    let nn : Notification :=
      { id := s.nextId + 1, eventId := s.nextId, title := "Event Duplicated",
        message := some ("Event \"" ++ (e.name ++ " (Copy)") ++
          "\" has been created as a copy"),
        isRead := 0, createdAt := now }
    eventDuplicate id now s =
      (Except.ok d,
       { events := s.events ++ [d], notifications := s.notifications ++ [nn],
         nextId := s.nextId + 2 }) ∧
    d.id ≠ e.id ∧
    (eventDuplicate id now s).2.notifications.filter
        (fun m => decide (m.eventId = d.id)) = [nn] := by
  intro d nn
  have hmem : e ∈ s.events := findEvent_mem h
  have hlt : e.id < s.nextId := hwfE e hmem
  have heq : eventDuplicate id now s =
      (Except.ok d,
       { events := s.events ++ [d], notifications := s.notifications ++ [nn],
         nextId := s.nextId + 2 }) := by
    simp [eventDuplicate, h, repoCreateEvent, repoCreateNotification, d, nn]
  refine ⟨heq, by simp [d]; omega, ?_⟩
  rw [heq]
  have hnil : s.notifications.filter (fun m => decide (m.eventId = d.id)) = [] := by
    rw [List.filter_eq_nil_iff]
    intro m hm
    have := hwfN m hm
    simp [d]
    omega
  simp [List.filter_append, hnil, d, nn]

/-- The first match of the id predicate after the mark-as-read map is the
marked first match of the original list. -/
lemma find_map_setRead (l : List Notification) (id : Nat) :
    (l.map (fun x => if x.id = id then { x with isRead := 1 } else x)).find?
        (fun x => decide (x.id = id)) =
      (l.find? (fun x => decide (x.id = id))).map
        (fun x => { x with isRead := 1 }) := by
  induction l with
  | nil => rfl
  | cons a t ih =>
    by_cases hid : a.id = id
    · simp [List.find?_cons, hid]
    · simp [List.find?_cons, hid, ih]

/-- C7: `markAsRead` is idempotent for an existing notification: the first
call returns a read notification and never errors, and a second call returns
the very same result with the very same store (its early-return branch
performs no write). -/
theorem markAsRead_idempotent (s : Store) (id : Nat) (n : Notification)
    (h : findNotif s id = some n) :
    (∃ n1, (notifMarkAsRead id s).1 = Except.ok (some n1) ∧ n1.isRead = 1) ∧
    notifMarkAsRead id (notifMarkAsRead id s).2 = notifMarkAsRead id s := by
  have h2 : List.find? (fun x => decide (x.id = id)) s.notifications = some n := h
  by_cases hr : n.isRead = 1
  · have hfix : notifMarkAsRead id s = (Except.ok (some n), s) := by
      simp [notifMarkAsRead, h, hr]
    constructor
    · exact ⟨n, by rw [hfix], hr⟩
    · rw [hfix]
      exact hfix
  · have hhead : ((s.notifications.filter (fun x => decide (x.id = id))).map
        (fun x => { x with isRead := 1 })).head? = some { n with isRead := 1 } := by
      rw [head_map, head_filter_eq_find, h2]
      rfl
    have hfirst : notifMarkAsRead id s =
        (Except.ok (some { n with isRead := 1 }),
         { s with notifications := s.notifications.map (fun x => if x.id = id then { x with isRead := 1 } else x) }) := by
      simp [notifMarkAsRead, h, hr, repoMarkAsRead, hhead]
    have h3 : findNotif { s with notifications := s.notifications.map (fun x => if x.id = id then { x with isRead := 1 } else x) } id =
        some { n with isRead := 1 } := by
      show (s.notifications.map
        (fun x => if x.id = id then { x with isRead := 1 } else x)).find?
          (fun x => decide (x.id = id)) = _
      rw [find_map_setRead, h2]
      rfl
    constructor
    · exact ⟨{ n with isRead := 1 }, by rw [hfirst], rfl⟩
    · rw [hfirst]
      simp [notifMarkAsRead, h3]

/-- Witness for C6 at a concrete store: duplicating a published event yields
a draft copy with suffixed name and a fresh id. -/
def dupEvent : Event :=
  { id := 0, name := "Conf", description := some "d", status := Status.published,
    startDate := 1, endDate := some 3, location := some "SF",
    tags := some ["tech"], notificationCount := 0, createdAt := 0, updatedAt := 0 }

/-- Store for the duplicate witness: one published event with one notification. -/
def dupStore : Store :=
  { events := [dupEvent],
    notifications := [{ id := 1, eventId := 0, title := "Old", message := none,
                        isRead := 0, createdAt := 0 }],
    nextId := 2 }

/-- Witness for C6: concrete run of `duplicate` on a published source. -/
theorem duplicate_copies_as_draft_witness :
    (eventDuplicate 0 7 dupStore).1 =
      Except.ok { id := 2, name := "Conf (Copy)", description := some "d",
                  status := Status.draft, startDate := 1, endDate := some 3,
                  location := some "SF", tags := some ["tech"],
                  notificationCount := 0, createdAt := 7, updatedAt := 7 } ∧
    (eventDuplicate 0 7 dupStore).2.notifications.filter
        (fun m => decide (m.eventId = 2)) =
      [{ id := 3, eventId := 2, title := "Event Duplicated",
         message := some ("Event \"Conf (Copy)\" has been created as a copy"),
         isRead := 0, createdAt := 7 }] := by
  obtain ⟨h1, h2, h3⟩ :=
    duplicate_copies_as_draft dupStore 0 7 dupEvent rfl (by decide) (by decide)
  constructor
  · rw [h1]
    rfl
  · rw [h1] at h3 ⊢
    convert h3 using 2

/-- Store for the mark-as-read witness: one unread notification. -/
def c7Store : Store :=
  { events := [sampleEvent],
    notifications := [{ id := 3, eventId := 0, title := "N", message := none,
                        isRead := 0, createdAt := 0 }],
    nextId := 4 }

/-- Witness for C7: concrete idempotence of `markAsRead`. -/
theorem markAsRead_idempotent_witness :
    (notifMarkAsRead 3 c7Store).1 =
      Except.ok (some { id := 3, eventId := 0, title := "N", message := none,
                        isRead := 1, createdAt := 0 }) ∧
    notifMarkAsRead 3 (notifMarkAsRead 3 c7Store).2 = notifMarkAsRead 3 c7Store :=
  ⟨rfl,
   (markAsRead_idempotent c7Store 3
     { id := 3, eventId := 0, title := "N", message := none, isRead := 0,
       createdAt := 0 } rfl).2⟩

/-- C8 (amended): `markAllReadForEvent(eventId)` sets the read flag on every
notification row belonging to the event (the unread ones are thereby flipped,
the already-read ones keep their value), leaves every other row and the
events table untouched, and returns all rows matched by the UPDATE — i.e.
every notification of the event with the flag set, including those that were
already read — not merely the previously-unread ones. -/
theorem markAllRead_updates_event_rows (targetId : Nat) (s : Store) :
    (notifMarkAllReadForEvent targetId s).1 =
      (s.notifications.filter (fun n => decide (n.eventId = targetId))).map
        (fun n => { n with isRead := 1 }) ∧
    (notifMarkAllReadForEvent targetId s).2.notifications =
      s.notifications.map
        (fun n => if n.eventId = targetId then { n with isRead := 1 } else n) ∧
    (notifMarkAllReadForEvent targetId s).2.events = s.events ∧
    (∀ n ∈ s.notifications, n.eventId ≠ targetId →
      n ∈ (notifMarkAllReadForEvent targetId s).2.notifications) ∧
    (∀ n ∈ s.notifications, n.eventId = targetId →
      { n with isRead := 1 } ∈ (notifMarkAllReadForEvent targetId s).2.notifications) := by
  refine ⟨rfl, rfl, rfl, ?_, ?_⟩
  · intro n hn hne
    have heq : (fun n : Notification =>
        if n.eventId = targetId then { n with isRead := 1 } else n) n = n := by
      simp [hne]
    exact heq ▸ List.mem_map_of_mem _ hn
  · intro n hn he
    have heq : (fun n : Notification =>
        if n.eventId = targetId then { n with isRead := 1 } else n) n =
        { n with isRead := 1 } := by
      simp [he]
    exact heq ▸ List.mem_map_of_mem _ hn

/-- Store refuting the original C8: the event's only notification is already
read, so nothing is flipped. -/
def c8Store : Store :=
  { events := [sampleEvent],
    notifications := [{ id := 1, eventId := 0, title := "T", message := none,
                        isRead := 1, createdAt := 0 }],
    nextId := 2 }

/-- Counterexample to C8 as stated: with no unread notification on the event
(nothing to flip, so the set of updated notifications is empty), the call
still returns a non-empty list — the already-read row. -/
theorem markAllRead_cex :
    c8Store.notifications.all (fun n => decide (n.isRead = 1)) = true ∧
    (notifMarkAllReadForEvent 0 c8Store).1 =
      [{ id := 1, eventId := 0, title := "T", message := none, isRead := 1,
         createdAt := 0 }] := by
  constructor
  · decide
  · rfl

/-- Store for the C8 witness: one unread notification on event 0 and one
unread notification on another event. -/
def c8wStore : Store :=
  { events := [sampleEvent],
    notifications :=
      [{ id := 1, eventId := 0, title := "a", message := none, isRead := 0,
         createdAt := 0 },
       { id := 2, eventId := 5, title := "b", message := none, isRead := 0,
         createdAt := 0 }],
    nextId := 3 }

/-- Witness for C8 at a concrete store: the event's unread notification is
flipped and returned, and the other event's notification is untouched. -/
theorem markAllRead_updates_event_rows_witness :
    (notifMarkAllReadForEvent 0 c8wStore).1 =
      [{ id := 1, eventId := 0, title := "a", message := none, isRead := 1,
         createdAt := 0 }] ∧
    ({ id := 2, eventId := 5, title := "b", message := none, isRead := 0,
       createdAt := 0 } : Notification) ∈
      (notifMarkAllReadForEvent 0 c8wStore).2.notifications := by
  obtain ⟨h1, h2, h3, h4, h5⟩ := markAllRead_updates_event_rows 0 c8wStore
  constructor
  · rw [h1]
    decide
  · exact h4 ⟨2, 5, "b", none, 0, 0⟩ (by decide) (by decide)

/-- The write phase of `update` when the row exists: returns the changed row
and appends the "Event Updated" notification exactly when the trigger fields
are truthy. -/
lemma eventUpdateWrite_found (s : Store) (id : Nat) (c : EventChanges)
    (now : Int) (e : Event)
    (h2 : List.find? (fun x => decide (x.id = id)) s.events = some e) :
    eventUpdateWrite id c now s =
      (Except.ok (applyChanges c now e),
       if notifTrigger c then
         { events := s.events.map
             (fun x => if x.id = id then applyChanges c now x else x),
           notifications := s.notifications ++
             [{ id := s.nextId, eventId := id, title := "Event Updated",
                message := some "Event has been updated", isRead := 0,
                createdAt := now }],
           nextId := s.nextId + 1 }
       else
         { events := s.events.map
             (fun x => if x.id = id then applyChanges c now x else x),
           notifications := s.notifications, nextId := s.nextId }) := by
  cases ht : notifTrigger c <;>
    simp [eventUpdateWrite, repoUpdateEvent, h2, ht, repoCreateNotification]

/-- When the date validation passes (or is not triggered), `update` reduces
to its write phase. -/
lemma eventUpdate_ok_of_valid (s : Store) (id : Nat) (c : EventChanges)
    (now : Int) (e : Event) (h : findEvent s id = some e)
    (hval : dateGuard c = true →
      validateEventDates (c.startDate.getD e.startDate)
        (mergedEndForValidation c e) = none) :
    eventUpdate id c now s = eventUpdateWrite id c now s := by
  by_cases hd : dateGuard c
  · simp [eventUpdate, hd, h, hval hd]
  · simp [eventUpdate, hd]

/-- C5 (amended): a successful `update` on an existing event appends exactly
one "Event Updated" notification when the change set carries a truthy trigger
field — a status, a startDate, or a non-empty name — and none otherwise; in
particular changing only `location` is silent, and so is setting the name to
the empty string (the JavaScript truthiness test `changes.name`). -/
theorem update_notifies_on_trigger_fields (s : Store) (id : Nat)
    (c : EventChanges) (now : Int) (e : Event) (h : findEvent s id = some e)
    (hval : dateGuard c = true →
      validateEventDates (c.startDate.getD e.startDate)
        (mergedEndForValidation c e) = none) :
    (eventUpdate id c now s).1 = Except.ok (applyChanges c now e) ∧
    (notifTrigger c = true →
      (eventUpdate id c now s).2.notifications =
        s.notifications ++
          [{ id := s.nextId, eventId := id, title := "Event Updated",
             message := some "Event has been updated", isRead := 0,
             createdAt := now }]) ∧
    (notifTrigger c = false →
      (eventUpdate id c now s).2.notifications = s.notifications) := by
  have h2 : List.find? (fun x => decide (x.id = id)) s.events = some e := h
  rw [eventUpdate_ok_of_valid s id c now e h hval, eventUpdateWrite_found s id c now e h2]
  refine ⟨rfl, ?_, ?_⟩
  · intro ht
    simp [ht]
  · intro ht
    simp [ht]

/-- Store for the C5 concrete runs: one draft event, no notifications. -/
def c5Store : Store :=
  { events := [sampleEvent], notifications := [], nextId := 1 }

/-- Counterexample to C5 as stated: `update(id, {name: ""})` touches the name
field, succeeds, and yet creates zero notifications (empty string is falsy). -/
theorem update_notifies_cex :
    (eventUpdate 0 { name := some "" } 5 c5Store).1 =
      Except.ok { sampleEvent with name := "", updatedAt := 5 } ∧
    (eventUpdate 0 { name := some "" } 5 c5Store).2.notifications = [] := by
  constructor
  · rfl
  · rfl

/-- Witness for C5: a status-only update on an event with no prior
notifications produces exactly one "Event Updated" notification, and a
location-only update produces none. -/
theorem update_notifies_on_trigger_fields_witness :
    (eventUpdate 0 { status := some Status.archived } 5 c5Store).2.notifications =
      [{ id := 1, eventId := 0, title := "Event Updated",
         message := some "Event has been updated", isRead := 0, createdAt := 5 }] ∧
    (eventUpdate 0 { location := some (some "HQ") } 5 c5Store).2.notifications =
      [] := by
  constructor
  · rw [(update_notifies_on_trigger_fields c5Store 0
      { status := some Status.archived } 5 sampleEvent rfl (by decide)).2.1 rfl]
    rfl
  · rw [(update_notifies_on_trigger_fields c5Store 0
      { location := some (some "HQ") } 5 sampleEvent rfl (by decide)).2.2 rfl]
    rfl

/-- A freshly inserted event whose dates passed validation satisfies the
date invariant. -/
lemma dateOkB_repoCreate (d : NewEvent) (now : Int) (s : Store)
    (hv : validateEventDates d.startDate d.endDate = none) :
    dateOkB (repoCreateEvent d now s).1 = true := by
  rcases hde : d.endDate with _ | en
  · simp [repoCreateEvent, dateOkB, hde]
  · rw [hde] at hv
    simp [validateEventDates] at hv
    simp [repoCreateEvent, dateOkB, hde]
    omega

/-- A row rewritten by `update` satisfies the date invariant whenever the
service's merged-date validation passed (or was not triggered) and the row
satisfied it before. -/
lemma dateOkB_applyChanges (c : EventChanges) (now : Int) (e : Event)
    (hval : dateGuard c = true →
      validateEventDates (c.startDate.getD e.startDate)
        (mergedEndForValidation c e) = none)
    (he : dateOkB e = true) :
    dateOkB (applyChanges c now e) = true := by
  rcases hce : c.endDate with _ | en2
  · rcases hcs : c.startDate with _ | x
    · simpa [dateOkB, applyChanges, hce, hcs] using he
    · have hv := hval (by simp [dateGuard, hcs])
      simp only [mergedEndForValidation, hce, hcs, Option.getD_some] at hv
      rcases he2 : e.endDate with _ | en
      · simp [dateOkB, applyChanges, hce, hcs, he2]
      · rw [he2] at hv
        simp [validateEventDates] at hv
        simp [dateOkB, applyChanges, hce, hcs, he2]
        omega
  · rcases en2 with _ | d0
    · simp [dateOkB, applyChanges, hce]
    · have hv := hval (by simp [dateGuard, hce])
      simp only [mergedEndForValidation, hce] at hv
      simp [validateEventDates] at hv
      simp [dateOkB, applyChanges, hce]
      omega

/-- Shape of a successful `update`: the row existed, the returned event is
the changed row, the table is rewritten pointwise, and if the date guard was
triggered the merged-date validation passed. -/
lemma eventUpdate_ok_cases (s : Store) (id : Nat) (c : EventChanges)
    (now : Int) (ev : Event) (s2 : Store)
    (hok : eventUpdate id c now s = (Except.ok ev, s2)) :
    ∃ ex, findEvent s id = some ex ∧ ev = applyChanges c now ex ∧
      s2.events = s.events.map
        (fun x => if x.id = id then applyChanges c now x else x) ∧
      (dateGuard c = true →
        validateEventDates (c.startDate.getD ex.startDate)
          (mergedEndForValidation c ex) = none) := by
  have hwrite : ∀ ex, findEvent s id = some ex →
      eventUpdateWrite id c now s = (Except.ok ev, s2) →
      ev = applyChanges c now ex ∧
      s2.events = s.events.map
        (fun x => if x.id = id then applyChanges c now x else x) := by
    intro ex hf hw
    rw [eventUpdateWrite_found s id c now ex hf] at hw
    have h1 := congrArg Prod.fst hw
    have h2 := congrArg Prod.snd hw
    simp only at h1 h2
    refine ⟨by simpa using h1.symm, ?_⟩
    cases ht : notifTrigger c <;> rw [ht] at h2 <;> simp at h2 <;>
      rw [← h2]
  have hfindW : eventUpdateWrite id c now s = (Except.ok ev, s2) →
      ∃ ex, findEvent s id = some ex := by
    intro hw
    cases hf : findEvent s id with
    | none =>
      have h2n : List.find? (fun x => decide (x.id = id)) s.events = none := hf
      simp [eventUpdateWrite, repoUpdateEvent, h2n] at hw
    | some ex => exact ⟨ex, rfl⟩
  by_cases hd : dateGuard c = true
  · rw [eventUpdate] at hok
    rw [if_pos hd] at hok
    cases hf : findEvent s id with
    | none => rw [hf] at hok; exact absurd hok (by simp)
    | some ex =>
      rw [hf] at hok
      have hok2 : (match validateEventDates (c.startDate.getD ex.startDate)
            (mergedEndForValidation c ex) with
          | some err => (Except.error err, s)
          | none => eventUpdateWrite id c now s) = (Except.ok ev, s2) := hok
      cases hv : validateEventDates (c.startDate.getD ex.startDate)
          (mergedEndForValidation c ex) with
      | some err => rw [hv] at hok2; exact absurd hok2 (by simp)
      | none =>
        rw [hv] at hok2
        obtain ⟨h1, h2⟩ := hwrite ex hf hok2
        exact ⟨ex, rfl, h1, h2, fun _ => hv⟩
  · rw [eventUpdate] at hok
    rw [if_neg hd] at hok
    obtain ⟨ex, hf⟩ := hfindW hok
    obtain ⟨h1, h2⟩ := hwrite ex hf hok
    exact ⟨ex, hf, h1, h2, fun h => absurd h hd⟩

/-- A successful `update` on a well-formed store (distinct ids, all rows
date-consistent) keeps every row date-consistent. -/
lemma update_preserves_dateOk (s : Store) (id : Nat) (c : EventChanges)
    (now : Int) (ev : Event) (s2 : Store)
    (hu : (s.events.map (fun x => x.id)).Nodup)
    (hall : s.events.all dateOkB = true)
    (hok : eventUpdate id c now s = (Except.ok ev, s2)) :
    dateOkB ev = true ∧ s2.events.all dateOkB = true := by
  obtain ⟨ex, hf, hev, hs2, hval⟩ := eventUpdate_ok_cases s id c now ev s2 hok
  have hmem : ex ∈ s.events := findEvent_mem hf
  have hexid : ex.id = id := findEvent_id hf
  have hallP := List.all_eq_true.mp hall
  have hexok : dateOkB ex = true := hallP ex hmem
  have hevok : dateOkB ev = true := by
    rw [hev]
    exact dateOkB_applyChanges c now ex hval hexok
  refine ⟨hevok, ?_⟩
  rw [hs2, List.all_eq_true]
  intro y hy
  rw [List.mem_map] at hy
  obtain ⟨x, hx, hxy⟩ := hy
  by_cases hxid : x.id = id
  · have hxe : x = ex := List.inj_on_of_nodup_map hu hx hmem (by rw [hxid, hexid])
    rw [← hxy, if_pos hxid, hxe]
    exact dateOkB_applyChanges c now ex hval hexok
  · rw [← hxy, if_neg hxid]
    exact hallP x hx

/-- C1 (amended): on create and update, a resulting event always satisfies
"endDate, if present, is strictly after startDate", violating inputs are
rejected with the ValidationFailed error and the store is left unchanged;
for update the ordering is re-validated on the merged dates, where the stored
value is taken for any date field that is absent from the change set or (for
endDate) explicitly null — an explicit null endDate clears the column but the
validation still uses the previously stored end date. -/
theorem date_order_enforced (s : Store) (now : Int) :
    (∀ d : NewEvent, ∀ ev : Event, ∀ s2 : Store,
      eventCreate d now s = (Except.ok ev, s2) →
      dateOkB ev = true ∧
      (s.events.all dateOkB = true → s2.events.all dateOkB = true)) ∧
    (∀ d : NewEvent, ∀ en : Int, d.endDate = some en → en ≤ d.startDate →
      eventCreate d now s =
        (Except.error
          (DomainError.validationFailed "End date must be after start date"),
         s)) ∧
    (∀ id : Nat, ∀ c : EventChanges, ∀ ev : Event, ∀ s2 : Store,
      (s.events.map (fun x => x.id)).Nodup →
      s.events.all dateOkB = true →
      eventUpdate id c now s = (Except.ok ev, s2) →
      dateOkB ev = true ∧ s2.events.all dateOkB = true) ∧
    (∀ id : Nat, ∀ c : EventChanges, ∀ e : Event,
      findEvent s id = some e → dateGuard c = true →
      ∀ en : Int, mergedEndForValidation c e = some en →
        en ≤ c.startDate.getD e.startDate →
        eventUpdate id c now s =
          (Except.error
            (DomainError.validationFailed "End date must be after start date"),
           s)) := by
  refine ⟨?_, ?_, ?_, ?_⟩
  · intro d ev s2 hok
    rw [eventCreate] at hok
    cases hv : validateEventDates d.startDate d.endDate with
    | some err => rw [hv] at hok; exact absurd hok (by simp)
    | none =>
      rw [hv] at hok
      have hcr := dateOkB_repoCreate
        { d with status := some (d.status.getD Status.draft),
                 updatedAt := some now } now s hv
      have h1 := congrArg Prod.fst hok
      have h2 := congrArg Prod.snd hok
      simp only at h1 h2
      constructor
      · rw [← Except.ok.inj h1]
        exact hcr
      · intro hall
        rw [← h2]
        simpa [repoCreateEvent, repoCreateNotification, List.all_append, hall]
          using hcr
  · intro d en he hle
    have hv : validateEventDates d.startDate d.endDate =
        some (DomainError.validationFailed "End date must be after start date") := by
      simp [validateEventDates, he, hle]
    simp [eventCreate, hv]
  · intro id c ev s2 hu hall hok
    exact update_preserves_dateOk s id c now ev s2 hu hall hok
  · intro id c e hf hg en hm hle
    have hv : validateEventDates (c.startDate.getD e.startDate)
        (mergedEndForValidation c e) =
        some (DomainError.validationFailed "End date must be after start date") := by
      rw [hm]
      simp [validateEventDates, hle]
    simp [eventUpdate, hg, hf, hv]

/-- A stored event with dates (0, some 5) used to refute the merged-date
sentence of C1. -/
def c1Event : Event :=
  { id := 0, name := "E", description := none, status := Status.draft,
    startDate := 0, endDate := some 5, location := none, tags := none,
    notificationCount := 0, createdAt := 0, updatedAt := 0 }

/-- One-event store for the C1 counterexample and witness. -/
def c1Store : Store :=
  { events := [c1Event], notifications := [], nextId := 1 }

/-- The change set moving startDate past the old endDate while clearing
endDate (explicit null). -/
def c1Changes : EventChanges :=
  { startDate := some 10, endDate := some none }

/-- Counterexample to C1 as stated: both date fields are part of the change
set and the merged effective dates are (10, null) — the updated row would
have no end date at all, so re-validation on the merged effective dates
cannot fail — yet the code validates the new startDate against the old
stored endDate and rejects the update with ValidationFailed. -/
theorem date_order_enforced_cex :
    (applyChanges c1Changes 7 c1Event).endDate = none ∧
    (applyChanges c1Changes 7 c1Event).startDate = 10 ∧
    eventUpdate 0 c1Changes 7 c1Store =
      (Except.error
        (DomainError.validationFailed "End date must be after start date"),
       c1Store) := by
  refine ⟨rfl, rfl, rfl⟩

/-- Witness for C1: the spec's own scenario — creating an event whose end
date precedes its start date fails with ValidationFailed and an unchanged
store — and a date-fixing update is accepted with a date-consistent result. -/
theorem date_order_enforced_witness :
    eventCreate { name := "Launch", startDate := 10, endDate := some 9 } 0
        c1Store =
      (Except.error
        (DomainError.validationFailed "End date must be after start date"),
       c1Store) ∧
    dateOkB { c1Event with startDate := 3, updatedAt := 5 } = true := by
  constructor
  · exact (date_order_enforced c1Store 0).2.1
      { name := "Launch", startDate := 10, endDate := some 9 } 9 rfl (by decide)
  · exact ((date_order_enforced c1Store 5).2.2.1 0 { startDate := some 3 } _ _
      (by decide) (by decide) rfl).1

/-- The original claim's reading of the search filter: case-insensitive
substring match against the event name or any tag value. -/
def specSearchSubstr (q : String) (e : Event) : Bool :=
  hasSubCI q e.name || (e.tags.getD []).any (fun t => hasSubCI q t)

/-- The amended reading of the search filter, stated independently of the
repository code: case-insensitive SQL LIKE with the pattern `%q%` against
the event name or any tag value (so `%`, `_` and backslash inside the search
text act as pattern metacharacters, not literal characters). -/
def specSearchLike (q : String) (e : Event) : Bool :=
  sqlIlike ("%" ++ q ++ "%") e.name ||
    (e.tags.getD []).any (fun t => sqlIlike ("%" ++ q ++ "%") t)

/-- The amended row filter of the list endpoint: the LIKE-based search filter
when a non-empty search text is given, AND exact status equality when a
status is given (an empty search text is ignored). -/
def specFilter (sq : Option String) (st : Option Status) (e : Event) : Bool :=
  (match sq with
   | some q => if q = "" then true else specSearchLike q e
   | none => true) &&
  (match st with
   | some v => decide (e.status = v)
   | none => true)

/-- C2 (amended): a `listEvents` call returns exactly the filtered rows at
offset `(page-1)*pageSize`, at most `pageSize` of them; both filters combine
with AND, with the search filter interpreted as SQL ILIKE `%q%` rather than a
literal substring; `totalItems` counts all rows matching the same filters
(not just the page), and the handler computes `totalPages` as the ceiling
division of that total by the page size. -/
theorem listEvents_filters_and_paginates (page pageSize : Nat)
    (sq : Option String) (st : Option Status) (s : Store)
    (_hp : 1 ≤ page) (_hps : 1 ≤ pageSize) :
    (listEventsHandler page pageSize sq st s).1.map Prod.fst =
      ((s.events.filter (specFilter sq st)).drop ((page - 1) * pageSize)).take
        pageSize ∧
    (listEventsHandler page pageSize sq st s).1.length ≤ pageSize ∧
    (listEventsHandler page pageSize sq st s).2.totalItems =
      (s.events.filter (specFilter sq st)).length ∧
    (listEventsHandler page pageSize sq st s).2.totalPages =
      (s.events.filter (specFilter sq st)).length ⌈/⌉ pageSize := by
  have hfe : s.events.filter (condMatches sq st) =
      s.events.filter (specFilter sq st) := rfl
  refine ⟨?_, ?_, ?_, ?_⟩
  · show (repoFindAllEvents page pageSize sq st s).map Prod.fst = _
    rw [repoFindAllEvents, List.map_take, List.map_drop, List.map_map]
    rw [show (Prod.fst ∘ fun e : Event =>
        (e, (s.notifications.filter (fun n => decide (n.eventId = e.id))).length)) =
      id from rfl]
    rw [List.map_id, hfe]
  · show ((repoFindAllEvents page pageSize sq st s)).length ≤ pageSize
    rw [repoFindAllEvents, List.length_take]
    omega
  · show repoCountWithFilters sq st s = _
    rw [repoCountWithFilters, hfe]
  · show (repoCountWithFilters sq st s + pageSize - 1) / pageSize = _
    rw [Nat.ceilDiv_eq_add_pred_div, repoCountWithFilters, hfe]

/-- An event whose name contains the characters a, x, b — matched by the
ILIKE pattern `%a%b%` but not containing the substring "a%b". -/
def c2Event : Event :=
  { id := 0, name := "axb", description := none, status := Status.draft,
    startDate := 0, endDate := none, location := none, tags := none,
    notificationCount := 0, createdAt := 0, updatedAt := 0 }

/-- One-event store for the C2 counterexample. -/
def c2Store : Store :=
  { events := [c2Event], notifications := [], nextId := 1 }

/-- Counterexample to C2 as stated: searching for "a%b" returns the event
named "axb", although "a%b" is not a (case-insensitive) substring of that
name or of any tag — the `%` in the search text acts as a LIKE wildcard, so
the filter is not a substring match. -/
theorem listEvents_filters_cex :
    (listEventsHandler 1 10 (some "a%b") none c2Store).1.map Prod.fst =
      [c2Event] ∧
    specSearchSubstr "a%b" c2Event = false := by
  constructor
  · decide
  · decide

/-- Six-event store realising the spec's pagination scenario: five rows match
the search text "conf", one does not. -/
def c2wStore : Store :=
  { events :=
      [{ c2Event with id := 0, name := "Tech Conference" },
       { c2Event with id := 1, name := "conf one" },
       { c2Event with id := 2, name := "Big CONF" },
       { c2Event with id := 3, name := "Sales Kickoff" },
       { c2Event with id := 4, name := "myconf" },
       { c2Event with id := 5, name := "conference" }],
    notifications := [], nextId := 6 }

/-- Witness for C2: page 2 with pageSize 2 over the five rows matching
"conf" returns exactly the third and fourth matching rows, totalItems is 5
and totalPages is ceil(5/2) = 3. -/
theorem listEvents_filters_and_paginates_witness :
    (listEventsHandler 2 2 (some "conf") none c2wStore).1.map Prod.fst =
      [{ c2Event with id := 2, name := "Big CONF" },
       { c2Event with id := 4, name := "myconf" }] ∧
    (listEventsHandler 2 2 (some "conf") none c2wStore).2.totalItems = 5 ∧
    (listEventsHandler 2 2 (some "conf") none c2wStore).2.totalPages = 3 := by
  obtain ⟨h1, h2, h3, h4⟩ :=
    listEvents_filters_and_paginates 2 2 (some "conf") none c2wStore
      (by decide) (by decide)
  refine ⟨?_, ?_, ?_⟩
  · rw [h1]
    decide
  · rw [h3]
    decide
  · rw [h4]
    decide
